import Mathlib

/-!
Verification of the server-entity decoding and bandwidth-join logic of the
vendored vultr client library (`vendor/github.com/JamesClonk/vultr/lib/servers.go`).

The Go code decodes a JSON payload into a generic `map[string]interface{}`
(`encoding/json` turns JSON numbers into `float64`, strings into `string`,
null into `nil`, arrays into `[]interface{}`, objects into
`map[string]interface{}`), then coerces each field by rendering it with
`fmt.Sprintf("%v", ...)` and re-parsing with `strconv.ParseInt` /
`strconv.ParseFloat`.

Modelling choices:
* A decoded JSON value is `GoVal`.  A JSON number (a `float64` in Go) is
  modelled by the exact decimal value `m * 10^e` it was parsed from; this is
  faithful for decimals of at most 15 significant digits, which round-trip
  through `float64`, and `fmt`'s shortest `%v` rendering of such a `float64`
  is exactly the normalized decimal (`goFormatFloat` below).
* A parsed `float64` result is `GoFloat`: an exact rational, `±Inf`, or `NaN`.
  The code only parses and stores floats (no arithmetic), so exact rationals
  are observationally faithful.
* The decoded top-level object is a total lookup function
  `Fields := String → Option GoVal`, matching Go map-indexing semantics
  (a missing key yields the `nil` interface, rendered `"<nil>"`).
-/

set_option maxRecDepth 40000

namespace Vultr

/-- A JSON value as decoded by Go's `encoding/json` into `interface{}`. -/
inductive GoVal : Type where
  | null : GoVal
  | boolean (b : Bool) : GoVal
  | num (m : Int) (e : Int) : GoVal
  | str (s : String) : GoVal
  | arr (elems : List GoVal) : GoVal
  | obj (kvs : List (String × GoVal)) : GoVal

/-- Strip trailing decimal zeros, fuel-driven so that it reduces by kernel
computation: each step divides by 10, so `fuel = n` always suffices
(`n / 10 < n` for `n ≠ 0`). -/
def stripTensFuel : Nat → Nat → Nat × Nat
  | 0, n => (n, 0)
  | fuel + 1, n =>
    if n ≠ 0 ∧ n % 10 = 0 then
      let p := stripTensFuel fuel (n / 10)
      (p.1, p.2 + 1)
    else
      (n, 0)

/-- Strip trailing decimal zeros from a numeral: returns `(m, k)` with
`n = m * 10^k` and (when `n ≠ 0`) `m` not divisible by 10. -/
def stripTens (n : Nat) : Nat × Nat := stripTensFuel n n

/-- `fmt.Sprintf("%v", f)` for a `float64` holding the exact decimal `m·10^e`:
`strconv.FormatFloat(f, 'g', -1, 64)`, i.e. shortest digits, with exponent
format used when the decimal exponent is `< -4` or `≥ 6`. -/
def goFormatFloat (m e : Int) : String :=
  if m = 0 then "0"
  else
    let p := stripTens m.natAbs
    let e' : Int := e + p.2
    let ds := toString p.1
    let nd : Int := ds.length
    let dp : Int := nd + e'
    let exp : Int := dp - 1
    let body :=
      if exp < -4 ∨ exp ≥ 6 then
        let head := ds.take 1
        let tail := ds.drop 1
        let mant := if tail.isEmpty then head else head ++ "." ++ tail
        let esign := if exp < 0 then "-" else "+"
        let eabs := exp.natAbs
        let edig := if eabs < 10 then "0" ++ toString eabs else toString eabs
        mant ++ "e" ++ esign ++ edig
      else
        if dp ≤ 0 then "0." ++ String.mk (List.replicate (-dp).toNat '0') ++ ds
        else if dp < nd then ds.take dp.toNat ++ "." ++ ds.drop dp.toNat
        else ds ++ String.mk (List.replicate (dp - nd).toNat '0')
    if m < 0 then "-" ++ body else body

/-- Last-binding-wins dedup of key/value pairs (Go maps have unique keys; a
JSON object with duplicate keys decodes with the last value winning). -/
def dedupPairs (kvs : List (String × String)) : List (String × String) :=
  kvs.foldl (fun acc p => acc.filter (fun q => !(q.1 == p.1)) ++ [p]) []

/-- Byte-wise (code-point-wise) string order, as Go compares strings. -/
def strLeB (a b : String) : Bool :=
  let rec go : List Char → List Char → Bool
    | [], _ => true
    | _ :: _, [] => false
    | c :: cs, d :: ds =>
      if c.toNat < d.toNat then true
      else if d.toNat < c.toNat then false
      else go cs ds
  go a.toList b.toList

/-- Insertion sort by key (Go's `fmt` prints map keys in sorted order). -/
def insertPair (p : String × String) : List (String × String) → List (String × String)
  | [] => [p]
  | q :: rest => if strLeB p.1 q.1 then p :: q :: rest else q :: insertPair p rest

def sortPairs (kvs : List (String × String)) : List (String × String) :=
  kvs.foldr insertPair []

mutual

/-- `fmt.Sprintf("%v", v)` for a decoded JSON value. -/
def sprintfVal : GoVal → String
  | .null => "<nil>"
  | .boolean b => cond b "true" "false"
  | .num m e => goFormatFloat m e
  | .str s => s
  | .arr xs => "[" ++ String.intercalate " " (renderElems xs) ++ "]"
  | .obj kvs =>
      "map[" ++
        String.intercalate " "
          ((sortPairs (dedupPairs (renderPairs kvs))).map (fun q => q.1 ++ ":" ++ q.2)) ++
      "]"

def renderElems : List GoVal → List String
  | [] => []
  | x :: xs => sprintfVal x :: renderElems xs

def renderPairs : List (String × GoVal) → List (String × String)
  | [] => []
  | (k, v) :: rest => (k, sprintfVal v) :: renderPairs rest

end

/-- `fmt.Sprintf("%v", fields[key])`: a missing key gives the nil interface,
which renders as `"<nil>"`, exactly like JSON null. -/
def sprintfV : Option GoVal → String
  | none => "<nil>"
  | some v => sprintfVal v

/-- The per-field preamble of `Server.UnmarshalJSON`:
`value := fmt.Sprintf("%v", fields[k]); if len(value) == 0 || value == "<nil>" { value = "0" }`. -/
def coerceValue (v : Option GoVal) : String :=
  let value := sprintfV v
  if value.length = 0 ∨ value = "<nil>" then "0" else value

/-- The error kinds of `strconv.NumError` (`ErrSyntax` / `ErrRange`). -/
inductive NumErrKind : Type where
  | invalidNum : NumErrKind
  | outOfRange : NumErrKind
deriving DecidableEq

/-- `strconv.NumError`: the failing function, the offending input string and
the kind of failure.  Note it records the string being parsed, never the name
of the JSON field it came from. -/
structure NumError where
  fn : String
  num : String
  kind : NumErrKind
deriving DecidableEq

/-- Errors surfaced by the decoding path: a JSON-level failure (top-level
payload not an object / not parseable) or a `strconv` coercion failure. -/
inductive GoError : Type where
  | jsonErr (msg : String) : GoError
  | numErr (e : NumError) : GoError
deriving DecidableEq

instance {α β : Type} [DecidableEq α] [DecidableEq β] : DecidableEq (Except α β) := by
  intro a b
  cases a <;> cases b
  case error.error x y =>
    exact if h : x = y then isTrue (by rw [h]) else isFalse (by intro hh; cases hh; exact h rfl)
  case error.ok x y => exact isFalse (by intro hh; cases hh)
  case ok.error x y => exact isFalse (by intro hh; cases hh)
  case ok.ok x y =>
    exact if h : x = y then isTrue (by rw [h]) else isFalse (by intro hh; cases hh; exact h rfl)

/-- Fold a list of decimal digit characters into a `Nat`; `none` if empty or
if any character is not a digit (Go base-10 parsing: no underscores). -/
def digitsToNat : List Char → Option Nat
  | [] => none
  | cs =>
    cs.foldl
      (fun acc c =>
        match acc with
        | none => none
        | some n => if c.isDigit then some (n * 10 + (c.toNat - '0'.toNat)) else none)
      (some 0)

/-- `strconv.ParseInt(s, 10, 64)`: optional sign, decimal digits, value must
fit in `int64`. -/
def parseInt (s : String) : Except NumError Int :=
  let mk := fun k => NumError.mk "ParseInt" s k
  match s.toList with
  | [] => .error (mk .invalidNum)
  | c :: rest =>
    let neg := c = '-'
    let digits := if c = '-' ∨ c = '+' then rest else c :: rest
    match digitsToNat digits with
    | none => .error (mk .invalidNum)
    | some n =>
      if neg then
        if n > 2 ^ 63 then .error (mk .outOfRange) else .ok (-(n : Int))
      else
        if n ≥ 2 ^ 63 then .error (mk .outOfRange) else .ok (n : Int)

/-- A `float64` as produced by `strconv.ParseFloat`: the code only parses and
stores these (no arithmetic), so an exact rational is a faithful model of the
finite values. -/
inductive GoFloat : Type where
  | finite (q : ℚ) : GoFloat
  | inf (neg : Bool) : GoFloat
  | nan : GoFloat
deriving DecidableEq

/-- Largest finite `float64`, `(2^53 - 1) · 2^971`. -/
def maxFloat64 : ℚ := mkRat (Int.ofNat ((2 ^ 53 - 1) * 2 ^ 971)) 1

/-- Split the mantissa portion at an optional single `'.'`; both digit groups
may be empty individually but not both. Result: `(intDigits, fracDigits)`. -/
def splitMantissa (cs : List Char) : Option (List Char × List Char) :=
  let p := cs.span (fun c => !(c == '.'))
  match p.2 with
  | [] => some (p.1, [])
  | _ :: frac => if frac.contains '.' then none else some (p.1, frac)

/-- Digits-only check allowing the empty list. -/
def allDigits (cs : List Char) : Bool := cs.all Char.isDigit

/-- Value of a (possibly empty) digit list, empty meaning 0. -/
def digitsVal (cs : List Char) : Nat :=
  cs.foldl (fun n c => n * 10 + (c.toNat - '0'.toNat)) 0

/-- ASCII lowering, enough for the case-insensitive `inf` / `infinity` / `nan`
match (any string Go would case-fold onto those spellings is ASCII). -/
def asciiLower (s : String) : String :=
  String.mk (s.data.map (fun c =>
    if 'A' ≤ c ∧ c ≤ 'Z' then Char.ofNat (c.toNat + 32) else c))

/-- `strconv.ParseFloat(s, 64)` on decimal syntax: optional sign, digits with
an optional fraction, optional decimal exponent, plus the special spellings
`inf` / `infinity` / `nan` (case-insensitive).  Finite values parse to their
exact rational; a magnitude beyond the largest finite `float64` is `ErrRange`
(Go also returns `±Inf` there, discarded by the caller on error).  Hex-float
syntax, digit underscores and the underflow `ErrRange` case are not modelled;
the decoder never meets them. -/
def parseFloat (s : String) : Except NumError GoFloat :=
  let mk := fun k => NumError.mk "ParseFloat" s k
  let lower := asciiLower s
  if lower = "nan" then .ok .nan
  else if lower = "inf" ∨ lower = "+inf" ∨ lower = "infinity" ∨ lower = "+infinity" then
    .ok (.inf false)
  else if lower = "-inf" ∨ lower = "-infinity" then .ok (.inf true)
  else
    match s.toList with
    | [] => .error (mk .invalidNum)
    | c :: rest =>
      let neg := c = '-'
      let body := if c = '-' ∨ c = '+' then rest else c :: rest
      let sp := body.span (fun c => !(c == 'e' ∨ c == 'E'))
      let mant := sp.1
      let expPart : Option (List Char) :=
        match sp.2 with
        | [] => none
        | _ :: es => some es
      match splitMantissa mant with
      | none => .error (mk .invalidNum)
      | some (ip, fp) =>
        if !(allDigits ip ∧ allDigits fp) ∨ (ip.isEmpty ∧ fp.isEmpty) then
          .error (mk .invalidNum)
        else
          let expVal : Option Int :=
            match expPart with
            | none => some 0
            | some es =>
              match es with
              | [] => none
              | e0 :: etail =>
                let eneg := e0 = '-'
                let edigits := if e0 = '-' ∨ e0 = '+' then etail else e0 :: etail
                if edigits.isEmpty ∨ !(allDigits edigits) then none
                else some (if eneg then -(digitsVal edigits : Int) else (digitsVal edigits : Int))
          match expVal with
          | none => .error (mk .invalidNum)
          | some ex =>
            let ex' : Int := ex - (fp.length : Int)
            let q : ℚ :=
              if 0 ≤ ex' then
                mkRat (Int.ofNat (digitsVal (ip ++ fp) * 10 ^ ex'.toNat)) 1
              else
                mkRat (Int.ofNat (digitsVal (ip ++ fp))) (10 ^ (-ex').toNat)
            let q := if neg then -q else q
            let aq := if q < 0 then -q else q
            if q ≠ 0 ∧ maxFloat64 < aq then .error (mk .outOfRange)
            else .ok (.finite q)

/-- `V6Network` (lib/servers.go): one IPv6 network descriptor. -/
structure V6Network where
  Network : String
  MainIP : String
  NetworkSize : String
deriving DecidableEq

/-- `Server` (lib/servers.go): the decoded server entity.  String fields keep
their Go types; the three `int` fields are `Int` (64-bit values guaranteed by
`ParseInt`'s bit-size check) and the three `float64` fields are `GoFloat`. -/
structure Server where
  ID : String
  Name : String
  OS : String
  RAM : String
  Disk : String
  MainIP : String
  VCpus : Int
  Location : String
  RegionID : Int
  DefaultPassword : String
  Created : String
  PendingCharges : GoFloat
  Status : String
  Cost : String
  CurrentBandwidth : GoFloat
  AllowedBandwidth : GoFloat
  NetmaskV4 : String
  GatewayV4 : String
  PowerStatus : String
  ServerState : String
  PlanID : Int
  V6Networks : List V6Network
  InternalIP : String
  KVMUrl : String
  AutoBackups : String
  Tag : String
deriving DecidableEq

/-- The Go zero value `Server{}`: empty strings, zero numbers, nil slice. -/
def Server.default : Server where
  ID := ""
  Name := ""
  OS := ""
  RAM := ""
  Disk := ""
  MainIP := ""
  VCpus := 0
  Location := ""
  RegionID := 0
  DefaultPassword := ""
  Created := ""
  PendingCharges := .finite 0
  Status := ""
  Cost := ""
  CurrentBandwidth := .finite 0
  AllowedBandwidth := .finite 0
  NetmaskV4 := ""
  GatewayV4 := ""
  PowerStatus := ""
  ServerState := ""
  PlanID := 0
  V6Networks := []
  InternalIP := ""
  KVMUrl := ""
  AutoBackups := ""
  Tag := ""

/-- `ServerOptions` (lib/servers.go). -/
structure ServerOptions where
  IPXEChainURL : String
  ISO : Int
  Script : Int
  UserData : String
  Snapshot : String
  SSHKey : String
  IPV6 : Bool
  PrivateNetworking : Bool
  AutoBackups : Bool
  DontNotifyOnActivate : Bool
deriving DecidableEq

/-- The decoded top-level JSON object, as a Go map: lookup by key. -/
def Fields : Type := String → Option GoVal

/-- Go map indexing on a nested decoded object (`network["v6_network"]`):
with duplicate JSON keys the last binding wins. -/
def jlookup (kvs : List (String × GoVal)) (k : String) : Option GoVal :=
  kvs.foldl (fun acc p => if p.1 = k then some p.2 else acc) none

/-- One iteration of the `v6_networks` loop: an element that is a JSON object
yields a descriptor with the three sub-fields text-rendered; any other
element is skipped. -/
def decodeV6Elem : GoVal → Option V6Network
  | .obj kvs =>
      some
        { Network := sprintfV (jlookup kvs "v6_network")
          MainIP := sprintfV (jlookup kvs "v6_main_ip")
          NetworkSize := sprintfV (jlookup kvs "v6_network_size") }
  | _ => none

/-- The `v6_networks` loop (append an entry per object element). -/
def decodeV6List (xs : List GoVal) : List V6Network := xs.filterMap decodeV6Elem

/-- `Server.UnmarshalJSON`, after the top-level `json.Unmarshal` into the
generic map has succeeded.  The receiver `s0` is mutated field by field; a
`strconv` failure returns immediately with the fields decoded so far, exactly
as the Go method does.  (The `s == nil` guard at the top of the method is
unreachable and omitted.) -/
def unmarshalInto (s0 : Server) (fields : Fields) : Server × Option GoError :=
  match parseInt (coerceValue (fields "vcpu_count")) with
  | .error e => (s0, some (.numErr e))
  | .ok vcpu =>
    match parseInt (coerceValue (fields "DCID")) with
    | .error e => ({ s0 with VCpus := vcpu }, some (.numErr e))
    | .ok region =>
      match parseInt (coerceValue (fields "VPSPLANID")) with
      | .error e => ({ s0 with VCpus := vcpu, RegionID := region }, some (.numErr e))
      | .ok plan =>
        match parseFloat (coerceValue (fields "pending_charges")) with
        | .error e =>
          ({ s0 with VCpus := vcpu, RegionID := region, PlanID := plan }, some (.numErr e))
        | .ok pc =>
          match parseFloat (coerceValue (fields "current_bandwidth_gb")) with
          | .error e =>
            ({ s0 with
                VCpus := vcpu
                RegionID := region
                PlanID := plan
                PendingCharges := pc }, some (.numErr e))
          | .ok cb =>
            match parseFloat (coerceValue (fields "allowed_bandwidth_gb")) with
            | .error e =>
              ({ s0 with
                  VCpus := vcpu
                  RegionID := region
                  PlanID := plan
                  PendingCharges := pc
                  CurrentBandwidth := cb }, some (.numErr e))
            | .ok ab =>
              ({ s0 with
                  VCpus := vcpu
                  RegionID := region
                  PlanID := plan
                  PendingCharges := pc
                  CurrentBandwidth := cb
                  AllowedBandwidth := ab
                  ID := sprintfV (fields "SUBID")
                  Name := sprintfV (fields "label")
                  OS := sprintfV (fields "os")
                  RAM := sprintfV (fields "ram")
                  Disk := sprintfV (fields "disk")
                  MainIP := sprintfV (fields "main_ip")
                  Location := sprintfV (fields "location")
                  DefaultPassword := sprintfV (fields "default_password")
                  Created := sprintfV (fields "date_created")
                  Status := sprintfV (fields "status")
                  Cost := sprintfV (fields "cost_per_month")
                  NetmaskV4 := sprintfV (fields "netmask_v4")
                  GatewayV4 := sprintfV (fields "gateway_v4")
                  PowerStatus := sprintfV (fields "power_status")
                  ServerState := sprintfV (fields "server_state")
                  V6Networks :=
                    match fields "v6_networks" with
                    | some (.arr networks) => decodeV6List networks
                    | _ => s0.V6Networks
                  InternalIP := sprintfV (fields "internal_ip")
                  KVMUrl := sprintfV (fields "kvm_url")
                  AutoBackups := sprintfV (fields "auto_backups")
                  Tag := sprintfV (fields "tag") }, none)

/-- `Client.GetServer`: the transport decodes the response body into a fresh
`var server Server` through `Server.UnmarshalJSON`; on any error (transport /
top-level JSON / coercion, here the `resp` argument's error side and the
decode's error side) the caller receives `Server{}` and the error. -/
def getServer (resp : Except GoError Fields) : Server × Option GoError :=
  match resp with
  | .error e => (Server.default, some e)
  | .ok fields =>
    match unmarshalInto Server.default fields with
    | (_, some e) => (Server.default, some e)
    | (s, none) => (s, none)

/-- `url.Values` modelled as a key/value multiset (a list of pairs); all
observations go through `vGet`, which returns the value list of one key, so
pair order across distinct keys is irrelevant. -/
abbrev Values : Type := List (String × String)

/-- `values.Add(k, v)`: append `v` to the values of `k`. -/
def vAdd (vs : Values) (k v : String) : Values := vs ++ [(k, v)]

/-- `values.Set(k, v)`: replace the values of `k` by the single value `v`. -/
def vSet (vs : Values) (k v : String) : Values :=
  vs.filter (fun p => !(p.1 == k)) ++ [(k, v)]

/-- The values stored under key `k`. -/
def vGet (vs : Values) (k : String) : List String :=
  (vs.filter (fun p => p.1 == k)).map Prod.snd

/-- `fmt.Sprintf("%v", n)` for a Go `int`. -/
def goIntStr (n : Int) : String := toString n

/-- The standard base64 alphabet of `encoding/base64.StdEncoding`. -/
def base64Alphabet : List Char :=
  "ABCDEFGHIJKLMNOPQRSTUVWXYZabcdefghijklmnopqrstuvwxyz0123456789+/".toList

def base64Char (n : Nat) : Char := base64Alphabet.getD n 'A'

/-- Encode byte values three at a time into four base64 characters, padding
the final partial group with `'='`. -/
def base64Chunks : List Nat → List Char
  | [] => []
  | [b1] => [base64Char (b1 / 4), base64Char (b1 % 4 * 16), '=', '=']
  | [b1, b2] =>
      [base64Char (b1 / 4), base64Char (b1 % 4 * 16 + b2 / 16),
       base64Char (b2 % 16 * 4), '=']
  | b1 :: b2 :: b3 :: rest =>
      base64Char (b1 / 4) :: base64Char (b1 % 4 * 16 + b2 / 16) ::
      base64Char (b2 % 16 * 4 + b3 / 64) :: base64Char (b3 % 64) ::
      base64Chunks rest

/-- UTF-8 encoding of one code point (`[]byte(s)` in Go is UTF-8). -/
def utf8Bytes (c : Nat) : List Nat :=
  if c < 0x80 then [c]
  else if c < 0x800 then [0xC0 + c / 64, 0x80 + c % 64]
  else if c < 0x10000 then [0xE0 + c / 4096, 0x80 + c / 64 % 64, 0x80 + c % 64]
  else [0xF0 + c / 262144, 0x80 + c / 4096 % 64, 0x80 + c / 64 % 64, 0x80 + c % 64]

/-- The byte values of `[]byte(s)`. -/
def strBytes (s : String) : List Nat := s.data.flatMap (fun c => utf8Bytes c.toNat)

/-- `base64.StdEncoding.EncodeToString([]byte(s))`. -/
def base64Encode (s : String) : String :=
  String.mk (base64Chunks (strBytes s))

/-- The form values built by `Client.CreateServer` before posting to
`server/create`, in the source's construction order. -/
def createServerValues (name : String) (regionID planID osID : Int)
    (options : Option ServerOptions) : Values :=
  let values : Values :=
    [("label", name), ("DCID", goIntStr regionID),
     ("VPSPLANID", goIntStr planID), ("OSID", goIntStr osID)]
  match options with
  | none => values
  | some o =>
    let values := if o.IPXEChainURL ≠ "" then vAdd values "ipxe_chain_url" o.IPXEChainURL else values
    let values := if o.ISO ≠ 0 then vAdd values "ISOID" (goIntStr o.ISO) else values
    let values := if o.Script ≠ 0 then vAdd values "SCRIPTID" (goIntStr o.Script) else values
    let values := if o.UserData ≠ "" then vAdd values "userdata" (base64Encode o.UserData) else values
    let values := if o.Snapshot ≠ "" then vAdd values "SNAPSHOTID" o.Snapshot else values
    let values := if o.SSHKey ≠ "" then vAdd values "SSHKEYID" o.SSHKey else values
    let values := vAdd values "enable_ipv6" "no"
    let values := if o.IPV6 then vSet values "enable_ipv6" "yes" else values
    let values := vAdd values "enable_private_network" "no"
    let values := if o.PrivateNetworking then vSet values "enable_private_network" "yes" else values
    let values := vAdd values "auto_backups" "no"
    let values := if o.AutoBackups then vSet values "auto_backups" "yes" else values
    let values := vAdd values "notify_activate" "yes"
    let values := if o.DontNotifyOnActivate then vSet values "notify_activate" "no" else values
    values

/-- The entity half of `Client.CreateServer`: post the form, decode the
response into a fresh `var server Server`, and on success overwrite `Name`,
`RegionID` and `PlanID` with the caller's arguments.  On any error the
caller receives `Server{}` and the error. -/
def createServer (name : String) (regionID planID osID : Int)
    (options : Option ServerOptions) (resp : Except GoError Fields) :
    Server × Option GoError :=
  match resp with
  | .error e => (Server.default, some e)
  | .ok fields =>
    match unmarshalInto Server.default fields with
    | (_, some e) => (Server.default, some e)
    | (s, none) =>
      ({ s with Name := name, RegionID := regionID, PlanID := planID }, none)

/-- One emitted bandwidth record (`map[string]string` with keys `date`,
`incoming` and, once patched, `outgoing`). -/
structure BandwidthRec where
  date : String
  incoming : String
  outgoing : Option String
deriving DecidableEq

/-- The inner loop of `Client.BandwidthOfServer` for one outgoing entry
`b = (date, value)`: scan the records for the first whose date matches and
set its `outgoing` value, leaving everything else untouched (`break`). -/
def patchOutgoing : List BandwidthRec → String × String → List BandwidthRec
  | [], _ => []
  | r :: rest, b =>
      if r.date = b.1 then { r with outgoing := some b.2 } :: rest
      else r :: patchOutgoing rest b

/-- `Client.BandwidthOfServer`'s series join: one record per incoming entry,
in order, then each outgoing entry patches the first record with a matching
date.  Rows of the wire arrays (`[date, value]`) are modelled as pairs. -/
def joinBandwidth (incoming outgoing : List (String × String)) : List BandwidthRec :=
  let base := incoming.map (fun b => { date := b.1, incoming := b.2, outgoing := none : BandwidthRec })
  outgoing.foldl patchOutgoing base

/-- The six type-ambiguous numeric fields of the decoder. -/
inductive AmbField : Type where
  | vcpu : AmbField
  | region : AmbField
  | plan : AmbField
  | pending : AmbField
  | current : AmbField
  | allowed : AmbField
deriving DecidableEq

/-- Wire key of each type-ambiguous field. -/
def ambKey : AmbField → String
  | .vcpu => "vcpu_count"
  | .region => "DCID"
  | .plan => "VPSPLANID"
  | .pending => "pending_charges"
  | .current => "current_bandwidth_gb"
  | .allowed => "allowed_bandwidth_gb"

/-- The coercion error (if any) the decoder's per-field parse produces for a
wire value of a type-ambiguous field. -/
def ambCoerceErr (fld : AmbField) (v : Option GoVal) : Option NumError :=
  match fld with
  | .vcpu | .region | .plan =>
    match parseInt (coerceValue v) with
    | .error e => some e
    | .ok _ => none
  | .pending | .current | .allowed =>
    match parseFloat (coerceValue v) with
    | .error e => some e
    | .ok _ => none

/-- "This type-ambiguous field of `s` is zero." -/
def ambIsZero (fld : AmbField) (s : Server) : Prop :=
  match fld with
  | .vcpu => s.VCpus = 0
  | .region => s.RegionID = 0
  | .plan => s.PlanID = 0
  | .pending => s.PendingCharges = .finite 0
  | .current => s.CurrentBandwidth = .finite 0
  | .allowed => s.AllowedBandwidth = .finite 0

/-- The nineteen type-stable (string-class) fields the decoder text-renders. -/
inductive StrField : Type where
  | id | name | os | ram | disk | mainIP | location | defaultPassword
  | created | status | cost | netmaskV4 | gatewayV4 | powerStatus
  | serverState | internalIP | kvmUrl | autoBackups | tag
deriving DecidableEq

/-- Wire key of each type-stable field. -/
def strKey : StrField → String
  | .id => "SUBID"
  | .name => "label"
  | .os => "os"
  | .ram => "ram"
  | .disk => "disk"
  | .mainIP => "main_ip"
  | .location => "location"
  | .defaultPassword => "default_password"
  | .created => "date_created"
  | .status => "status"
  | .cost => "cost_per_month"
  | .netmaskV4 => "netmask_v4"
  | .gatewayV4 => "gateway_v4"
  | .powerStatus => "power_status"
  | .serverState => "server_state"
  | .internalIP => "internal_ip"
  | .kvmUrl => "kvm_url"
  | .autoBackups => "auto_backups"
  | .tag => "tag"

/-- Projection of each type-stable field out of the entity. -/
def strProj : StrField → Server → String
  | .id => Server.ID
  | .name => Server.Name
  | .os => Server.OS
  | .ram => Server.RAM
  | .disk => Server.Disk
  | .mainIP => Server.MainIP
  | .location => Server.Location
  | .defaultPassword => Server.DefaultPassword
  | .created => Server.Created
  | .status => Server.Status
  | .cost => Server.Cost
  | .netmaskV4 => Server.NetmaskV4
  | .gatewayV4 => Server.GatewayV4
  | .powerStatus => Server.PowerStatus
  | .serverState => Server.ServerState
  | .internalIP => Server.InternalIP
  | .kvmUrl => Server.KVMUrl
  | .autoBackups => Server.AutoBackups
  | .tag => Server.Tag

/-! ### Concrete payload fixtures -/

/-- The empty payload: a decoded JSON `null` / empty object (nil Go map). -/
def nilFields : Fields := fun _ => none

/-- The entity the decoder produces from `nilFields` on a fresh receiver:
every string field is the `"<nil>"` placeholder, every numeric field zero. -/
def nilServer : Server where
  ID := "<nil>"
  Name := "<nil>"
  OS := "<nil>"
  RAM := "<nil>"
  Disk := "<nil>"
  MainIP := "<nil>"
  VCpus := 0
  Location := "<nil>"
  RegionID := 0
  DefaultPassword := "<nil>"
  Created := "<nil>"
  PendingCharges := .finite 0
  Status := "<nil>"
  Cost := "<nil>"
  CurrentBandwidth := .finite 0
  AllowedBandwidth := .finite 0
  NetmaskV4 := "<nil>"
  GatewayV4 := "<nil>"
  PowerStatus := "<nil>"
  ServerState := "<nil>"
  PlanID := 0
  V6Networks := []
  InternalIP := "<nil>"
  KVMUrl := "<nil>"
  AutoBackups := "<nil>"
  Tag := "<nil>"

/-- Payload with `vcpu_count` as the JSON number `2`. -/
def c1NumFields : Fields := fun k => if k = "vcpu_count" then some (.num 2 0) else none

/-- Payload with `vcpu_count` as the JSON string `"2"`. -/
def c1StrFields : Fields := fun k => if k = "vcpu_count" then some (.str "2") else none

/-- Payload with a non-numeric string in `vcpu_count`. -/
def c5FieldsA : Fields := fun k => if k = "vcpu_count" then some (.str "abc") else none

/-- Payload with a non-numeric string in `DCID`. -/
def c5FieldsB : Fields := fun k => if k = "DCID" then some (.str "abc") else none

/-- Payload with `vcpu_count` as the non-integral JSON number `2.5`. -/
def c10FieldsFrac : Fields := fun k => if k = "vcpu_count" then some (.num 25 (-1)) else none

/-- Payload with `DCID` as the JSON number `10000000` (renders as `1e+07`). -/
def c10FieldsBig : Fields := fun k => if k = "DCID" then some (.num 10000000 0) else none

/-- Options fixture: user data set, IPv6 on, activation notice suppressed. -/
def c8Opts : ServerOptions where
  IPXEChainURL := ""
  ISO := 0
  Script := 0
  UserData := "hello"
  Snapshot := ""
  SSHKey := ""
  IPV6 := true
  PrivateNetworking := false
  AutoBackups := false
  DontNotifyOnActivate := true

/-! ### Helper lemmas -/

/-- The decoder reads the generic map only through `fmt.Sprintf("%v", ·)` on
scalar fields and through the raw value of `v6_networks`. -/
theorem unmarshalInto_congr (s0 : Server) (fields fields' : Fields)
    (hall : ∀ k, sprintfV (fields' k) = sprintfV (fields k))
    (hv6 : fields' "v6_networks" = fields "v6_networks") :
    unmarshalInto s0 fields' = unmarshalInto s0 fields := by
  simp only [unmarshalInto, coerceValue, hall, hv6]

/-- Shape of a successful decode: every numeric parse succeeded with the
stored value, every string field is the text rendering of its wire value,
and `V6Networks` comes from the `v6_networks` array when there is one and is
otherwise left untouched. -/
theorem unmarshalInto_ok_proj (s0 : Server) (fields : Fields) (s : Server)
    (h : unmarshalInto s0 fields = (s, none)) :
    parseInt (coerceValue (fields "vcpu_count")) = .ok s.VCpus ∧
    parseInt (coerceValue (fields "DCID")) = .ok s.RegionID ∧
    parseInt (coerceValue (fields "VPSPLANID")) = .ok s.PlanID ∧
    parseFloat (coerceValue (fields "pending_charges")) = .ok s.PendingCharges ∧
    parseFloat (coerceValue (fields "current_bandwidth_gb")) = .ok s.CurrentBandwidth ∧
    parseFloat (coerceValue (fields "allowed_bandwidth_gb")) = .ok s.AllowedBandwidth ∧
    (∀ f : StrField, strProj f s = sprintfV (fields (strKey f))) ∧
    (∀ ns, fields "v6_networks" = some (.arr ns) → s.V6Networks = decodeV6List ns) ∧
    ((∀ ns, fields "v6_networks" ≠ some (.arr ns)) → s.V6Networks = s0.V6Networks) := by
  unfold unmarshalInto at h
  split at h
  case _ => exact absurd h (by simp)
  case _ vcpu hv =>
    split at h
    case _ => exact absurd h (by simp)
    case _ region hr =>
      split at h
      case _ => exact absurd h (by simp)
      case _ plan hp =>
        split at h
        case _ => exact absurd h (by simp)
        case _ pc hpc =>
          split at h
          case _ => exact absurd h (by simp)
          case _ cb hcb =>
            split at h
            case _ => exact absurd h (by simp)
            case _ ab hab =>
              injection h with h1 h2
              subst h1
              refine ⟨hv, hr, hp, hpc, hcb, hab, ?_, ?_, ?_⟩
              · intro f; cases f <;> rfl
              · intro ns hns
                simp only [hns]
              · intro hnone
                cases hfv : fields "v6_networks" with
                | none => simp only [hfv]
                | some v =>
                  cases v with
                  | arr ns => exact absurd hfv (hnone ns)
                  | null => simp only [hfv]
                  | boolean b => simp only [hfv]
                  | num m e => simp only [hfv]
                  | str s => simp only [hfv]
                  | obj kvs => simp only [hfv]

/-- Every decode failure is a `strconv` coercion failure. -/
theorem unmarshalInto_err_shape (s0 : Server) (fields : Fields) (g : GoError)
    (h : (unmarshalInto s0 fields).2 = some g) : ∃ e, g = .numErr e := by
  unfold unmarshalInto at h
  split at h
  next e hq => injection h with h1; exact ⟨e, h1.symm⟩
  next vcpu hq =>
    split at h
    next e hq2 => injection h with h1; exact ⟨e, h1.symm⟩
    next region hq2 =>
      split at h
      next e hq3 => injection h with h1; exact ⟨e, h1.symm⟩
      next plan hq3 =>
        split at h
        next e hq4 => injection h with h1; exact ⟨e, h1.symm⟩
        next pc hq4 =>
          split at h
          next e hq5 => injection h with h1; exact ⟨e, h1.symm⟩
          next cb hq5 =>
            split at h
            next e hq6 => injection h with h1; exact ⟨e, h1.symm⟩
            next ab hq6 => exact Option.noConfusion h

/-- Patching never changes the dates of the records. -/
theorem patchOutgoing_dates (recs : List BandwidthRec) (b : String × String) :
    (patchOutgoing recs b).map BandwidthRec.date = recs.map BandwidthRec.date := by
  induction recs with
  | nil => rfl
  | cons r rest ih =>
    unfold patchOutgoing
    split
    · rfl
    · simp [ih]

/-- Folding patches never changes the dates of the records. -/
theorem foldl_patch_dates (out : List (String × String)) (recs : List BandwidthRec) :
    (out.foldl patchOutgoing recs).map BandwidthRec.date = recs.map BandwidthRec.date := by
  induction out generalizing recs with
  | nil => rfl
  | cons b out' ih => rw [List.foldl_cons, ih, patchOutgoing_dates]

/-- An outgoing entry whose date matches no record is a no-op. -/
theorem patchOutgoing_no_match (recs : List BandwidthRec) (d v : String)
    (hd : d ∉ recs.map BandwidthRec.date) : patchOutgoing recs (d, v) = recs := by
  induction recs with
  | nil => rfl
  | cons r rest ih =>
    simp only [List.map_cons, List.mem_cons, not_or] at hd
    unfold patchOutgoing
    rw [if_neg (fun hc => hd.1 hc.symm), ih hd.2]

/-- A record whose date matches no outgoing entry is carried through a fold
of patches unchanged, in place. -/
theorem foldl_patch_cons (out : List (String × String)) (r : BandwidthRec)
    (recs : List BandwidthRec) (hne : ∀ b ∈ out, b.1 ≠ r.date) :
    out.foldl patchOutgoing (r :: recs) = r :: out.foldl patchOutgoing recs := by
  induction out generalizing recs with
  | nil => rfl
  | cons b out' ih =>
    rw [List.foldl_cons, List.foldl_cons]
    have hb : b.1 ≠ r.date := hne b (List.mem_cons_self b out')
    have hstep : patchOutgoing (r :: recs) b = r :: patchOutgoing recs b := by
      simp only [patchOutgoing]
      rw [if_neg (fun hc => hb hc.symm)]
    rw [hstep, ih _ (fun b' hb' => hne b' (List.mem_cons_of_mem b hb'))]

/-- The dates of the joined result are exactly the incoming dates. -/
theorem joinBandwidth_dates (incoming outgoing : List (String × String)) :
    (joinBandwidth incoming outgoing).map BandwidthRec.date = incoming.map Prod.fst := by
  simp only [joinBandwidth]
  rw [foldl_patch_dates, List.map_map]
  rfl

/-- The join of date-identical, duplicate-free series zips the two series. -/
theorem joinBandwidth_zip (incoming outgoing : List (String × String)) :
    incoming.map Prod.fst = outgoing.map Prod.fst →
    (incoming.map Prod.fst).Nodup →
    joinBandwidth incoming outgoing =
      List.zipWith
        (fun i o => { date := i.1, incoming := i.2, outgoing := some o.2 : BandwidthRec })
        incoming outgoing := by
  induction incoming generalizing outgoing with
  | nil =>
    intro hkeys _
    cases outgoing with
    | nil => rfl
    | cons q out' => exact absurd hkeys (by simp)
  | cons p inc' ih =>
    intro hkeys hnodup
    cases outgoing with
    | nil => exact absurd hkeys (by simp)
    | cons q out' =>
      simp only [List.map_cons, List.cons.injEq] at hkeys
      obtain ⟨hpq, hkeys'⟩ := hkeys
      simp only [List.map_cons, List.nodup_cons] at hnodup
      obtain ⟨hpnot, hnodup'⟩ := hnodup
      simp only [joinBandwidth, List.map_cons, List.foldl_cons]
      have hhead :
          patchOutgoing
            ({ date := p.1, incoming := p.2, outgoing := none } ::
              inc'.map (fun b => { date := b.1, incoming := b.2, outgoing := none }))
            q =
          { date := p.1, incoming := p.2, outgoing := some q.2 } ::
            inc'.map (fun b => { date := b.1, incoming := b.2, outgoing := none }) := by
        unfold patchOutgoing
        rw [if_pos hpq]
      rw [hhead]
      have hne :
          ∀ b ∈ out',
            b.1 ≠ ({ date := p.1, incoming := p.2, outgoing := some q.2 : BandwidthRec }).date := by
        intro b hb hc
        have hmem : b.1 ∈ out'.map Prod.fst := List.mem_map_of_mem Prod.fst hb
        rw [← hkeys'] at hmem
        rw [hc] at hmem
        exact hpnot hmem
      rw [foldl_patch_cons out' _ _ hne, List.zipWith_cons_cons]
      have htail := ih out' hkeys' hnodup'
      simp only [joinBandwidth] at htail
      rw [htail]

/-- `vGet` distributes over append. -/
theorem vGet_append (vs ws : Values) (k : String) :
    vGet (vs ++ ws) k = vGet vs k ++ vGet ws k := by
  simp [vGet, List.filter_append]

/-- `Add` appends to the key's own values. -/
theorem vGet_add_eq (vs : Values) (k v : String) :
    vGet (vAdd vs k v) k = vGet vs k ++ [v] := by
  simp [vAdd, vGet, List.filter_append]

/-- `Add` leaves other keys alone. -/
theorem vGet_add_ne (vs : Values) (k v k' : String) (h : k ≠ k') :
    vGet (vAdd vs k v) k' = vGet vs k' := by
  simp [vAdd, vGet, List.filter_append, h]

/-- `Set` replaces the key's values by the singleton. -/
theorem vGet_set_eq (vs : Values) (k v : String) :
    vGet (vSet vs k v) k = [v] := by
  simp only [vSet, vGet, List.filter_append, List.map_append, List.filter_filter]
  have hnil :
      List.filter (fun p => decide (p.1 = k) && !(p.1 == k)) vs = [] := by
    apply List.filter_eq_nil_iff.mpr
    intro p hp
    by_cases hpk : p.1 = k <;> simp [hpk]
  rw [show (fun (p : String × String) => p.1 == k && !(p.1 == k)) =
        (fun p => decide (p.1 = k) && !(p.1 == k)) from rfl] at *
  simp [hnil]

/-- `Set` leaves other keys alone. -/
theorem vGet_set_ne (vs : Values) (k v k' : String) (h : k ≠ k') :
    vGet (vSet vs k v) k' = vGet vs k' := by
  simp only [vSet, vGet, List.filter_append, List.map_append, List.filter_filter]
  have hsame :
      List.filter (fun (p : String × String) => p.1 == k' && !(p.1 == k)) vs =
        List.filter (fun p => p.1 == k') vs := by
    apply List.filter_congr
    intro p hp
    by_cases hpk : p.1 = k'
    · simp [hpk, Ne.symm h]
    · simp [hpk]
  simp [hsame, h]

/-- `vGet` on an empty value list. -/
theorem vGet_nil (k : String) : vGet [] k = [] := rfl

/-- `vGet` on a cons cell. -/
theorem vGet_cons (p : String × String) (vs : Values) (k : String) :
    vGet (p :: vs) k = if p.1 = k then p.2 :: vGet vs k else vGet vs k := by
  by_cases h : p.1 = k <;> simp [vGet, List.filter_cons, h]

/-- `vGet` distributes over `if`. -/
theorem vGet_ite (c : Prop) [Decidable c] (a b : Values) (k : String) :
    vGet (if c then a else b) k = if c then vGet a k else vGet b k := by
  split <;> rfl

/-! ### Claims -/

/-- C1: for every payload that decodes successfully, each type-ambiguous
numeric field (`vcpu_count`, `DCID`, `VPSPLANID`, `pending_charges`,
`current_bandwidth_gb`, `allowed_bandwidth_gb`) yields the same numeric
value whether the wire value is a JSON number or the JSON string of that
number (part 1: replacing the number by its string form leaves the whole
decoded entity unchanged), and an absent or null wire value yields exactly
zero (part 2). -/
theorem c1_ambiguous_numeric_coercion :
    (∀ (fld : AmbField) (fields fields' : Fields) (s0 s : Server) (m e : Int),
        (∀ k, k ≠ ambKey fld → fields' k = fields k) →
        fields (ambKey fld) = some (.num m e) →
        fields' (ambKey fld) = some (.str (goFormatFloat m e)) →
        unmarshalInto s0 fields = (s, none) →
        unmarshalInto s0 fields' = (s, none)) ∧
    (∀ (fld : AmbField) (fields : Fields) (s0 s : Server),
        (fields (ambKey fld) = none ∨ fields (ambKey fld) = some .null) →
        unmarshalInto s0 fields = (s, none) →
        ambIsZero fld s) := by
  constructor
  · intro fld fields fields' s0 s m e hoth hnum hstr hok
    have hall : ∀ k, sprintfV (fields' k) = sprintfV (fields k) := by
      intro k
      by_cases hk : k = ambKey fld
      · subst hk
        rw [hnum, hstr]
        simp only [sprintfV, sprintfVal]
      · rw [hoth k hk]
    have hv6 : fields' "v6_networks" = fields "v6_networks" := by
      apply hoth
      cases fld <;> decide
    rw [unmarshalInto_congr s0 fields fields' hall hv6, hok]
  · intro fld fields s0 s hnull hok
    obtain ⟨h1, h2, h3, h4, h5, h6, -, -, -⟩ := unmarshalInto_ok_proj s0 fields s hok
    have hz : coerceValue (fields (ambKey fld)) = "0" := by
      rcases hnull with hn | hn <;> rw [hn] <;> rfl
    have hzi : parseInt "0" = (.ok 0 : Except NumError Int) := by decide
    have hzf : parseFloat "0" = (.ok (.finite 0) : Except NumError GoFloat) := by decide
    cases fld with
    | vcpu =>
      simp only [ambKey] at hz
      rw [hz, hzi] at h1; injection h1 with h1'; exact h1'.symm
    | region =>
      simp only [ambKey] at hz
      rw [hz, hzi] at h2; injection h2 with h2'; exact h2'.symm
    | plan =>
      simp only [ambKey] at hz
      rw [hz, hzi] at h3; injection h3 with h3'; exact h3'.symm
    | pending =>
      simp only [ambKey] at hz
      rw [hz, hzf] at h4; injection h4 with h4'; exact h4'.symm
    | current =>
      simp only [ambKey] at hz
      rw [hz, hzf] at h5; injection h5 with h5'; exact h5'.symm
    | allowed =>
      simp only [ambKey] at hz
      rw [hz, hzf] at h6; injection h6 with h6'; exact h6'.symm

/-- Witness for C1: the concrete payload `{"vcpu_count": 2}` decodes to the
same entity as `{"vcpu_count": "2"}` (part 1), and a payload with `DCID`
absent decodes `RegionID` to zero (part 2). -/
theorem c1_witness :
    unmarshalInto Server.default c1StrFields = ({ nilServer with VCpus := 2 }, none) ∧
    ambIsZero .region { nilServer with VCpus := 2 } :=
  ⟨c1_ambiguous_numeric_coercion.1 .vcpu c1NumFields c1StrFields Server.default
      { nilServer with VCpus := 2 } 2 0
      (by
        intro k hk
        simp only [ambKey] at hk
        simp only [c1NumFields, c1StrFields]
        rw [if_neg hk, if_neg hk])
      rfl rfl (by decide),
   c1_ambiguous_numeric_coercion.2 .region c1NumFields Server.default
      { nilServer with VCpus := 2 } (Or.inl rfl) (by decide)⟩

/-- C2: whenever the decoding path of `GetServer` fails (transport error,
top-level parse failure, or numeric-field coercion failure), the caller
never observes a partial entity: the returned server is exactly the zero
entity `Server{}`. -/
theorem c2_no_partial_entity :
    ∀ (resp : Except GoError Fields) (s : Server) (err : GoError),
      getServer resp = (s, some err) → s = Server.default := by
  intro resp s err h
  unfold getServer at h
  split at h
  · injection h with h1 h2
    exact h1.symm
  · split at h
    · injection h with h1 h2
      exact h1.symm
    · injection h with h1 h2
      exact Option.noConfusion h2

/-- Witness for C2: a payload with garbage in `vcpu_count` makes `GetServer`
fail, and the entity handed back is the zero entity. -/
theorem c2_witness : Server.default = Server.default :=
  c2_no_partial_entity (.ok c5FieldsA) Server.default
    (.numErr ⟨"ParseInt", "abc", .invalidNum⟩) (by decide)

/-- Counterexample for C5: the coercion error does not name the offending
field.  Garbage in `vcpu_count` and garbage in `DCID` (two payloads whose
offending fields differ, their wire values shown to differ at `vcpu_count`)
produce literally identical errors, so the error cannot identify the field. -/
theorem c5_counterexample :
    (unmarshalInto Server.default c5FieldsA).2
        = some (.numErr ⟨"ParseInt", "abc", .invalidNum⟩) ∧
    (unmarshalInto Server.default c5FieldsB).2
        = some (.numErr ⟨"ParseInt", "abc", .invalidNum⟩) ∧
    c5FieldsA "vcpu_count" ≠ c5FieldsB "vcpu_count" := by
  refine ⟨by decide, by decide, ?_⟩
  intro hcontra
  simp [c5FieldsA, c5FieldsB] at hcontra

/-- C5 (amended): a present, non-null, unparseable value in a type-ambiguous
numeric field makes decode fail with a `strconv` coercion error — an error
that records the offending text but not the field name — and (given a parsed
top-level object) decode fails for no other reason than such a coercion
failure. -/
theorem c5_coercion_failure :
    (∀ (fld : AmbField) (fields : Fields) (s0 : Server) (err : NumError),
        ambCoerceErr fld (fields (ambKey fld)) = some err →
        ∃ e, (unmarshalInto s0 fields).2 = some (.numErr e)) ∧
    (∀ (fields : Fields) (s0 : Server) (g : GoError),
        (unmarshalInto s0 fields).2 = some g → ∃ e, g = .numErr e) := by
  constructor
  · intro fld fields s0 err herr
    rcases hres : unmarshalInto s0 fields with ⟨s', o⟩
    cases o with
    | none =>
      exfalso
      obtain ⟨h1, h2, h3, h4, h5, h6, -, -, -⟩ := unmarshalInto_ok_proj s0 fields s' hres
      cases fld <;> simp [ambCoerceErr, ambKey, h1, h2, h3, h4, h5, h6] at herr
    | some g =>
      obtain ⟨e, he⟩ := unmarshalInto_err_shape s0 fields g (by rw [hres])
      exact ⟨e, by simp [hres, he]⟩
  · exact fun fields s0 g h => unmarshalInto_err_shape s0 fields g h

/-- Witness for C5: the `{"vcpu_count": "abc"}` payload has an unparseable
ambiguous field, so decode fails with a coercion error. -/
theorem c5_witness :
    (∃ e, (unmarshalInto Server.default c5FieldsA).2 = some (.numErr e)) ∧
    (∃ e, (GoError.numErr ⟨"ParseInt", "abc", .invalidNum⟩) = .numErr e) :=
  ⟨c5_coercion_failure.1 .vcpu c5FieldsA Server.default
      ⟨"ParseInt", "abc", .invalidNum⟩ (by decide),
   c5_coercion_failure.2 c5FieldsA Server.default
      (.numErr ⟨"ParseInt", "abc", .invalidNum⟩) (by decide)⟩

/-- C6: on every successful decode, each type-stable (string-class) field is
the text rendering of its wire value (even a numeric one), and when the key
is absent the field is the literal placeholder `"<nil>"`, not the empty
string. -/
theorem c6_string_placeholders :
    ∀ (f : StrField) (fields : Fields) (s0 s : Server),
      unmarshalInto s0 fields = (s, none) →
      strProj f s = sprintfV (fields (strKey f)) ∧
      (fields (strKey f) = none → strProj f s = "<nil>" ∧ strProj f s ≠ "") := by
  intro f fields s0 s h
  obtain ⟨-, -, -, -, -, -, hstrs, -, -⟩ := unmarshalInto_ok_proj s0 fields s h
  refine ⟨hstrs f, ?_⟩
  intro hnone
  rw [hstrs f, hnone]
  exact ⟨rfl, by decide⟩

/-- Witness for C6: in the empty payload the `SUBID` key is absent and the
decoded `ID` field is the `"<nil>"` placeholder. -/
theorem c6_witness :
    strProj .id nilServer = sprintfV (nilFields (strKey .id)) ∧
    (nilFields (strKey .id) = none →
      strProj .id nilServer = "<nil>" ∧ strProj .id nilServer ≠ "") :=
  c6_string_placeholders .id nilFields Server.default nilServer (by decide)

/-- C7: on every successful decode into a fresh entity, `V6Networks` is empty
when the `v6_networks` key is absent, when its value is not an array, and
when the array is empty — never an error — and when the value is an array,
each object element yields one descriptor with the three sub-fields
text-rendered (non-object elements are skipped). -/
theorem c7_v6_collection :
    ∀ (fields : Fields) (s : Server),
      unmarshalInto Server.default fields = (s, none) →
      (fields "v6_networks" = none → s.V6Networks = []) ∧
      (∀ v, fields "v6_networks" = some v → (∀ ns, v ≠ .arr ns) → s.V6Networks = []) ∧
      (∀ ns, fields "v6_networks" = some (.arr ns) → s.V6Networks = decodeV6List ns) ∧
      decodeV6List [] = [] ∧
      (∀ kvs rest,
        decodeV6List (.obj kvs :: rest) =
          { Network := sprintfV (jlookup kvs "v6_network")
            MainIP := sprintfV (jlookup kvs "v6_main_ip")
            NetworkSize := sprintfV (jlookup kvs "v6_network_size") } :: decodeV6List rest) := by
  intro fields s h
  obtain ⟨-, -, -, -, -, -, -, harr, hdef⟩ := unmarshalInto_ok_proj Server.default fields s h
  refine ⟨?_, ?_, harr, rfl, ?_⟩
  · intro hnone
    exact hdef (fun ns h' => by rw [hnone] at h'; exact Option.noConfusion h')
  · intro v hv hne
    refine hdef (fun ns h' => ?_)
    rw [hv] at h'
    injection h' with h''
    exact hne ns h''
  · intro kvs rest
    rfl

/-- Witness for C7: the empty payload has no `v6_networks` key and decodes to
an empty collection. -/
theorem c7_witness : nilServer.V6Networks = [] :=
  (c7_v6_collection nilFields nilServer (by decide)).1 rfl

/-- C10: integer-class ambiguous fields reject genuine JSON numbers whose
default textual form is not a plain decimal integer: `2.5` renders as
`"2.5"` and `10000000` renders as `"1e+07"`, and both are rejected by the
integer parse with the rendered text in the error. -/
theorem c10_integer_fields_reject_numbers :
    (unmarshalInto Server.default c10FieldsFrac).2
        = some (.numErr ⟨"ParseInt", "2.5", .invalidNum⟩) ∧
    (unmarshalInto Server.default c10FieldsBig).2
        = some (.numErr ⟨"ParseInt", "1e+07", .invalidNum⟩) ∧
    sprintfV (c10FieldsFrac "vcpu_count") = "2.5" ∧
    sprintfV (c10FieldsBig "DCID") = "1e+07" := by
  refine ⟨by decide, by decide, by decide, by decide⟩

/-- C3: an outgoing entry whose date occurs in no incoming entry contributes
nothing to the join: removing it leaves the result unchanged (so its value
appears nowhere in the output), and no record with its date is synthesized. -/
theorem c3_outgoing_only_date_dropped :
    ∀ (incoming out1 out2 : List (String × String)) (d v : String),
      d ∉ incoming.map Prod.fst →
      joinBandwidth incoming (out1 ++ (d, v) :: out2) = joinBandwidth incoming (out1 ++ out2) ∧
      (∀ r ∈ joinBandwidth incoming (out1 ++ (d, v) :: out2), r.date ≠ d) := by
  intro incoming out1 out2 d v hd
  constructor
  · simp only [joinBandwidth]
    rw [List.foldl_append, List.foldl_append, List.foldl_cons]
    have hmid :
        d ∉ (List.foldl patchOutgoing
            (incoming.map (fun b => { date := b.1, incoming := b.2, outgoing := none }))
            out1).map BandwidthRec.date := by
      rw [foldl_patch_dates, List.map_map]
      exact hd
    rw [patchOutgoing_no_match _ d v hmid]
  · intro r hr hcontra
    apply hd
    have hmem : r.date ∈ (joinBandwidth incoming (out1 ++ (d, v) :: out2)).map BandwidthRec.date :=
      List.mem_map_of_mem BandwidthRec.date hr
    rw [joinBandwidth_dates, hcontra] at hmem
    exact hmem

/-- Witness for C3: the spec's own example — the `("2020-01-03", "10")`
outgoing entry has no incoming counterpart, so dropping it changes nothing
and no result record carries its date. -/
theorem c3_witness :
    joinBandwidth [("2020-01-01", "100"), ("2020-01-02", "200")]
        ([("2020-01-02", "50")] ++ ("2020-01-03", "10") :: []) =
      joinBandwidth [("2020-01-01", "100"), ("2020-01-02", "200")]
        ([("2020-01-02", "50")] ++ []) ∧
    (∀ r ∈ joinBandwidth [("2020-01-01", "100"), ("2020-01-02", "200")]
        ([("2020-01-02", "50")] ++ ("2020-01-03", "10") :: []), r.date ≠ "2020-01-03") :=
  c3_outgoing_only_date_dropped [("2020-01-01", "100"), ("2020-01-02", "200")]
    [("2020-01-02", "50")] [] "2020-01-03" "10" (by decide)

/-- Counterexample for C4: with identical, same-order date-key sequences that
contain a duplicate, the join does not put both values on every record — both
outgoing entries patch the first record (last write wins there) and the
second record's outgoing value stays unset — and there are two records for
one date rather than exactly one. -/
theorem c4_counterexample :
    ([("a", "1"), ("a", "2")] : List (String × String)).map Prod.fst =
        ([("a", "3"), ("a", "4")] : List (String × String)).map Prod.fst ∧
    joinBandwidth [("a", "1"), ("a", "2")] [("a", "3"), ("a", "4")] =
      [{ date := "a", incoming := "1", outgoing := some "4" },
       { date := "a", incoming := "2", outgoing := none }] ∧
    ¬ (∀ r ∈ joinBandwidth [("a", "1"), ("a", "2")] [("a", "3"), ("a", "4")],
        r.outgoing ≠ none) := by
  refine ⟨by decide, by decide, by decide⟩

/-- C4 (amended): for input series whose date-key sequences are identical, in
the same order, and free of duplicates, the join produces exactly one merged
record per date carrying both values, in the incoming series' order (the
result is the position-wise zip of the two series); and each outgoing entry
patches only the first record with a matching date, leaving the rest alone. -/
theorem c4_identical_dates_join :
    (∀ (incoming outgoing : List (String × String)),
        incoming.map Prod.fst = outgoing.map Prod.fst →
        (incoming.map Prod.fst).Nodup →
        joinBandwidth incoming outgoing =
          List.zipWith
            (fun i o => { date := i.1, incoming := i.2, outgoing := some o.2 })
            incoming outgoing) ∧
    (∀ (r : BandwidthRec) (rest : List BandwidthRec) (b : String × String),
        r.date = b.1 →
        patchOutgoing (r :: rest) b = { r with outgoing := some b.2 } :: rest) := by
  constructor
  · exact joinBandwidth_zip
  · intro r rest b hrb
    simp only [patchOutgoing]
    rw [if_pos hrb]

/-- Witness for C4: duplicate-free identical date keys, fully zipped result;
and a first-match patch on a concrete record list. -/
theorem c4_witness :
    joinBandwidth [("a", "1"), ("b", "2")] [("a", "3"), ("b", "4")] =
      List.zipWith
        (fun i o => { date := i.1, incoming := i.2, outgoing := some o.2 })
        [("a", "1"), ("b", "2")] [("a", "3"), ("b", "4")] ∧
    patchOutgoing [{ date := "a", incoming := "1", outgoing := none }] ("a", "9") =
      [{ date := "a", incoming := "1", outgoing := some "9" }] :=
  ⟨c4_identical_dates_join.1 [("a", "1"), ("b", "2")] [("a", "3"), ("b", "4")]
      (by decide) (by decide),
   c4_identical_dates_join.2 { date := "a", incoming := "1", outgoing := none } [] ("a", "9") rfl⟩

/-- C8: with options provided, `CreateServer` base64-encodes non-empty user
data, sends each boolean option as `yes`/`no`, defaults the activation
notice to `yes` (notify) with `no` exactly when suppression is requested,
and contributes no parameter for each zero/empty non-boolean option. -/
theorem c8_create_server_options :
    ∀ (name : String) (regionID planID osID : Int) (o : ServerOptions),
      (o.UserData ≠ "" →
        vGet (createServerValues name regionID planID osID (some o)) "userdata" =
          [base64Encode o.UserData]) ∧
      (o.UserData = "" →
        vGet (createServerValues name regionID planID osID (some o)) "userdata" = []) ∧
      vGet (createServerValues name regionID planID osID (some o)) "enable_ipv6" =
        [if o.IPV6 then "yes" else "no"] ∧
      vGet (createServerValues name regionID planID osID (some o)) "enable_private_network" =
        [if o.PrivateNetworking then "yes" else "no"] ∧
      vGet (createServerValues name regionID planID osID (some o)) "auto_backups" =
        [if o.AutoBackups then "yes" else "no"] ∧
      vGet (createServerValues name regionID planID osID (some o)) "notify_activate" =
        [if o.DontNotifyOnActivate then "no" else "yes"] ∧
      (o.IPXEChainURL = "" →
        vGet (createServerValues name regionID planID osID (some o)) "ipxe_chain_url" = []) ∧
      (o.ISO = 0 →
        vGet (createServerValues name regionID planID osID (some o)) "ISOID" = []) ∧
      (o.Script = 0 →
        vGet (createServerValues name regionID planID osID (some o)) "SCRIPTID" = []) ∧
      (o.Snapshot = "" →
        vGet (createServerValues name regionID planID osID (some o)) "SNAPSHOTID" = []) ∧
      (o.SSHKey = "" →
        vGet (createServerValues name regionID planID osID (some o)) "SSHKEYID" = []) := by
  intro name regionID planID osID o
  obtain ⟨ipxe, iso, script, userdata, snap, ssh, ipv6, priv, autob, dontnotify⟩ := o
  refine ⟨?_, ?_, ?_, ?_, ?_, ?_, ?_, ?_, ?_, ?_, ?_⟩ <;>
    first
    | (intro h
       simp only [] at h
       simp at h
       simp [createServerValues, vGet_ite, vGet_add_eq, vGet_add_ne, vGet_set_eq,
         vGet_set_ne, vGet_cons, vGet_nil, h, ite_self])
    | (cases ipv6 <;> cases priv <;> cases autob <;> cases dontnotify <;>
       simp [createServerValues, vGet_ite, vGet_add_eq, vGet_add_ne, vGet_set_eq,
         vGet_set_ne, vGet_cons, vGet_nil, ite_self])

/-- Witness for C8: a concrete options record with user data `"hello"`, IPv6
enabled, and the activation notice suppressed. -/
theorem c8_witness :
    vGet (createServerValues "web" 7 3 1 (some c8Opts)) "userdata" = [base64Encode "hello"] ∧
    vGet (createServerValues "web" 7 3 1 (some c8Opts)) "notify_activate" = ["no"] ∧
    vGet (createServerValues "web" 7 3 1 (some c8Opts)) "ipxe_chain_url" = [] :=
  ⟨(c8_create_server_options "web" 7 3 1 c8Opts).1 (by decide),
   (c8_create_server_options "web" 7 3 1 c8Opts).2.2.2.2.2.1,
   (c8_create_server_options "web" 7 3 1 c8Opts).2.2.2.2.2.2.1 rfl⟩

/-- C9: a successful `CreateServer` returns the decoded response entity with
`Name`, `RegionID` and `PlanID` overwritten by the caller's arguments; every
other field comes from the decoded response. -/
theorem c9_create_overwrites :
    ∀ (name : String) (regionID planID osID : Int) (opts : Option ServerOptions)
      (resp : Except GoError Fields) (s : Server),
      createServer name regionID planID osID opts resp = (s, none) →
      ∃ fields d, resp = .ok fields ∧ unmarshalInto Server.default fields = (d, none) ∧
        s = { d with Name := name, RegionID := regionID, PlanID := planID } ∧
        s.Name = name ∧ s.RegionID = regionID ∧ s.PlanID = planID := by
  intro name regionID planID osID opts resp s h
  unfold createServer at h
  split at h
  · exact absurd h (by simp)
  next fields =>
    split at h
    next s1 e hm => exact absurd h (by simp)
    next s1 hm =>
      injection h with h1 h2
      subst h1
      exact ⟨fields, s1, rfl, hm, rfl, rfl, rfl, rfl⟩

/-- Witness for C9: creating against the empty-payload response yields the
placeholder entity with `Name`, `RegionID`, `PlanID` replaced by `"web"`,
`7`, `3`. -/
theorem c9_witness :
    ∃ fields d, (.ok nilFields : Except GoError Fields) = .ok fields ∧
      unmarshalInto Server.default fields = (d, none) ∧
      { nilServer with Name := "web", RegionID := 7, PlanID := 3 } =
        { d with Name := "web", RegionID := 7, PlanID := 3 } ∧
      ({ nilServer with Name := "web", RegionID := 7, PlanID := 3 } : Server).Name = "web" ∧
      ({ nilServer with Name := "web", RegionID := 7, PlanID := 3 } : Server).RegionID = 7 ∧
      ({ nilServer with Name := "web", RegionID := 7, PlanID := 3 } : Server).PlanID = 3 :=
  c9_create_overwrites "web" 7 3 1 none (.ok nilFields)
    { nilServer with Name := "web", RegionID := 7, PlanID := 3 } (by decide)

end Vultr
